import Mathlib

/-!
Verification of the R CLI agent core and of two skills, embedded from:
- src/r_cli/core/agent.py          (class Agent, class Skill)
- src/r_cli/skills/social_skill.py (SocialMediaSkill response queue)
- src/r_cli/skills/hublab_skill.py (HubLabSkill catalog search)

The modules core/llm.py, core/memory.py and core/logging.py are absent from
the repository snapshot (only agent.py, the skills and the test suite are
present); the definitions marked with a doc comment starting with the words
Modelled from the spec are reconstructed from the design document and from
the behaviour pinned by src/tests/test_core.py.
-/

/-- A short-term memory entry: type tag, text, timestamp. -/
structure MemoryEntry where
  entryType : String
  text : String
  timestamp : Nat
  deriving DecidableEq, Repr

/-- A callable tool descriptor (the Tool dataclass used by agent.py): name,
description, JSON-schema parameters kept abstract as text, and a handler
taking keyword arguments and returning a string. -/
structure Tool where
  name : String
  description : String
  parameters : String
  handler : List (String × String) → String

/-- An instantiated skill (agent.py class Skill): registry name, description,
the tools it contributes, and the direct-execution entry point. -/
structure SkillImpl where
  name : String
  description : String
  tools : List Tool
  execute : List (String × String) → String

/-- Python dict assignment d[k] = v: replace the value stored at an existing
key, keeping insertion order, else append the new key at the end. -/
def dictInsert : List (String × α) → String → α → List (String × α)
  | [], k, v => [(k, v)]
  | (k', v') :: rest, k, v =>
    if k' = k then (k', v) :: rest else (k', v') :: dictInsert rest k v

/-- Python dict lookup: the value stored at a key, if present. -/
def dictLookup : List (String × α) → String → Option α
  | [], _ => none
  | (k', v') :: rest, k => if k' = k then some v' else dictLookup rest k

/-- The agent state touched by the embedded operations: the skill registry
(a name-keyed dict in insertion order), the flat tool list, the short-term
memory buffer, the saved session, and a clock used for timestamps. -/
structure Agent where
  skills : List (String × SkillImpl)
  tools : List Tool
  buffer : List MemoryEntry
  savedSession : List MemoryEntry
  now : Nat

/-- Modelled from the spec: Memory.add_short_term appends a timestamped entry
to the in-memory buffer (core/memory.py is absent from the snapshot; agent.py
calls it as add_short_term(text, entry_type)). -/
def add_short_term (buf : List MemoryEntry) (text entryType : String) (now : Nat) :
    List MemoryEntry :=
  buf ++ [⟨entryType, text, now⟩]

/-- Modelled from the spec: the external behaviour Agent.run depends on.
chatContent gives the optional content of the assistant message returned by
LLMClient.chat, chatWithTools the final reply of a chat-with-tools exchange,
and relevantContext the deterministic relevance strategy of
Memory.get_relevant_context applied to the current buffer and query. -/
structure Env where
  chatContent : String → Option String
  chatWithTools : String → List Tool → String
  relevantContext : List MemoryEntry → String → String

/-- Observable outcome of one Agent.run call: the returned response, the
memory state read by the relevant-context fetch, the number of chat and
chat-with-tools calls issued, the final memory buffer, and the session
contents written by save_session. -/
structure RunResult where
  response : String
  bufferAtFetch : List MemoryEntry
  chatCalls : Nat
  chatWithToolsCalls : Nat
  finalBuffer : List MemoryEntry
  savedSession : List MemoryEntry

/-- Agent.run (agent.py lines 134-170): add the user input to memory, fetch
relevant context from memory, augment the prompt when the context is
non-empty, dispatch to chat_with_tools when the tool list is non-empty and to
chat otherwise (taking the message content or the empty string), add the
response to memory, save the session, and return the response. -/
def Agent.run (env : Env) (ag : Agent) (userInput : String) : RunResult :=
  let buf1 := add_short_term ag.buffer userInput "user_input" ag.now
  let context := env.relevantContext buf1 userInput
  let augmented :=
    if context ≠ "" then userInput ++ "\n\n[Available context]\n" ++ context
    else userInput
  let step :=
    if ag.tools.isEmpty then ((env.chatContent augmented).getD "", (1, 0))
    else (env.chatWithTools augmented ag.tools, (0, 1))
  let buf2 := add_short_term buf1 step.1 "agent_response" (ag.now + 1)
  { response := step.1
    bufferAtFetch := buf1
    chatCalls := step.2.1
    chatWithToolsCalls := step.2.2
    finalBuffer := buf2
    savedSession := buf2 }

/-- Agent.register_skill (agent.py lines 95-103): store the skill in the
registry under its name and append all of its tools to the flat tool list. -/
def register_skill (ag : Agent) (skill : SkillImpl) : Agent :=
  { ag with
    skills := dictInsert ag.skills skill.name skill
    tools := ag.tools ++ skill.tools }

/-- The load-time failures caught by Agent.load_skills: ImportError,
TypeError, OSError, and the catch-all for any other exception. -/
inductive LoadError where
  | importErr (msg : String)
  | typeErr (msg : String)
  | osErr (msg : String)
  | otherErr (msg : String)
  deriving DecidableEq, Repr

/-- A skill class as seen by load_skills: instantiating it with the shared
configuration either yields a skill or fails with a load-time error. -/
structure SkillClass where
  construct : Except LoadError SkillImpl

/-- Agent.load_skills (agent.py lines 105-132): for each class in the list,
instantiate it; when construction fails with any exception the class is
skipped with a logged diagnostic; an instantiated skill disabled in the
configuration is skipped; otherwise it is registered. The function is total:
every failure path is caught. -/
def load_skills (enabled : String → Bool) (classes : List SkillClass) (ag : Agent) : Agent :=
  classes.foldl (fun st c =>
    match c.construct with
    | .error _ => st
    | .ok skill => if enabled skill.name then register_skill st skill else st) ag

/-- Agent.run_skill_directly (agent.py lines 208-218): return the fixed
not-found string when the name is missing from the registry, else call the
direct-execution entry point of the named skill with the given arguments. -/
def run_skill_directly (ag : Agent) (skillName : String)
    (kwargs : List (String × String)) : String :=
  match dictLookup ag.skills skillName with
  | none => "Skill not found: " ++ skillName
  | some skill => skill.execute kwargs

/-- Agent.get_available_skills (agent.py lines 224-226): the registry keys. -/
def get_available_skills (ag : Agent) : List String :=
  ag.skills.map (·.1)

/-- A tool-call request parsed from a model response (core/llm.py ToolCall):
identifier, tool name, argument mapping. -/
structure ToolCall where
  id : String
  name : String
  arguments : List (String × String)
  deriving DecidableEq, Repr

/-- A conversation message (core/llm.py Message): role, optional content,
tool-call requests, and the tool-call id and tool name carried by a tool
result message. -/
structure Message where
  role : String
  content : Option String
  toolCalls : List ToolCall := []
  toolCallId : Option String := none
  name : Option String := none
  deriving DecidableEq, Repr

/-- Modelled from the spec: LLMClient.add_message appends one message to the
conversation history (core/llm.py is absent from the snapshot; the behaviour
is pinned by tests/test_core.py TestLLMClient). -/
def add_message (msgs : List Message) (role content : String) : List Message :=
  msgs ++ [{ role := role, content := some content }]

/-- Modelled from the spec: LLMClient.set_system_prompt replaces or inserts
the leading system message. -/
def set_system_prompt (msgs : List Message) (text : String) : List Message :=
  match msgs with
  | [] => [{ role := "system", content := some text }]
  | m :: rest =>
    if m.role = "system" then { role := "system", content := some text } :: rest
    else { role := "system", content := some text } :: m :: rest

/-- Modelled from the spec: LLMClient.clear_history drops all messages except
the leading system message. -/
def clear_history (msgs : List Message) : List Message :=
  match msgs with
  | [] => []
  | m :: _ => if m.role = "system" then [m] else []

/-- A sequence of add_message calls applied in order to a history. -/
def applyAdds (msgs : List Message) (calls : List (String × String)) : List Message :=
  calls.foldl (fun acc rc => add_message acc rc.1 rc.2) msgs

/-- Modelled from the spec: the cumulative token counters of core/logging.py
TokenTracker (absent from the snapshot; behaviour pinned by
tests/test_core.py TestTokenTracker). -/
structure TokenTracker where
  totalPromptTokens : Nat
  totalCompletionTokens : Nat
  totalTokens : Nat
  totalRequests : Nat
  deriving DecidableEq, Repr

/-- A fresh tracker with all counters at zero. -/
def TokenTracker.init : TokenTracker := ⟨0, 0, 0, 0⟩

/-- Modelled from the spec: TokenTracker.record adds the prompt and
completion counts to the running totals and bumps the request count. -/
def TokenTracker.record (t : TokenTracker) (promptTokens completionTokens : Nat) :
    TokenTracker :=
  { totalPromptTokens := t.totalPromptTokens + promptTokens
    totalCompletionTokens := t.totalCompletionTokens + completionTokens
    totalTokens := t.totalTokens + promptTokens + completionTokens
    totalRequests := t.totalRequests + 1 }

/-- Outcome of one attempt of the operation wrapped by with_retry: success,
a retriable failure (connection, timeout, rate limit), or a non-retriable
failure (validation, authentication, any other error). -/
inductive Attempt (α : Type) where
  | ok (v : α)
  | retriable (msg : String)
  | fatal (msg : String)
  deriving DecidableEq, Repr

/-- Final outcome of with_retry: the value, the connection error raised after
exhausting the retries (wrapping the last retriable failure), or an
immediately propagated non-retriable error. -/
inductive RetryOutcome (α : Type) where
  | ok (v : α)
  | connectionError (msg : String)
  | fatalError (msg : String)
  deriving DecidableEq, Repr

/-- Modelled from the spec: the retry loop of with_retry (core/llm.py is
absent from the snapshot; behaviour pinned by tests/test_core.py
TestRetryLogic). The wrapped operation is given by the outcome of each of its
attempts, indexed from 0; remaining counts the retries still allowed. The
result carries the outcome and the total number of invocations made. The
backoff delay between attempts has no observable effect here and is not
modelled. -/
def retryGo (op : Nat → Attempt α) (attempt : Nat) : Nat → RetryOutcome α × Nat
  | 0 =>
    match op attempt with
    | .ok v => (.ok v, attempt + 1)
    | .fatal m => (.fatalError m, attempt + 1)
    | .retriable m => (.connectionError m, attempt + 1)
  | r + 1 =>
    match op attempt with
    | .ok v => (.ok v, attempt + 1)
    | .fatal m => (.fatalError m, attempt + 1)
    | .retriable _ => retryGo op (attempt + 1) r

/-- Modelled from the spec: with_retry executes the operation, retrying up to
max_retries additional times on retriable failures and propagating
non-retriable failures immediately. -/
def with_retry (maxRetries : Nat) (op : Nat → Attempt α) : RetryOutcome α × Nat :=
  retryGo op 0 maxRetries

/-- A response-queue item built by SocialMediaSkill.queue_add
(social_skill.py lines 766-786). -/
structure QueueItem where
  id : String
  platform : String
  messageId : String
  response : String
  priority : String
  status : String
  createdAt : String
  deriving DecidableEq, Repr

/-- SocialMediaSkill.queue_add (social_skill.py lines 766-786): append a new
item with status pending whose id is derived from the current queue length;
now stands for the creation timestamp taken from the clock. -/
def queue_add (queue : List QueueItem) (platform messageId response priority now : String) :
    List QueueItem :=
  queue ++ [{ id := "q_" ++ toString (queue.length + 1)
              platform := platform
              messageId := messageId
              response := response
              priority := priority
              status := "pending"
              createdAt := now }]

/-- SocialMediaSkill.queue_list (social_skill.py lines 788-805) only renders
the queue as text and performs no mutation: the queue after the call is the
queue before it. -/
def queue_list_queueAfter (queue : List QueueItem) : List QueueItem :=
  queue

/-- SocialMediaSkill.queue_send (social_skill.py lines 807-838): when the
queue is empty it is returned unchanged; otherwise the selected items (the
whole queue when queue_id is None or the string all, else the items with the
given id) that are still pending are attempted; a successful send marks the
item sent, a failure leaves it pending and records an error line; finally
every item whose status is no longer pending is removed. sendOk gives the
success of the underlying _send_reply call for each item. -/
def queue_send (sendOk : QueueItem → Bool) (queueId : Option String)
    (queue : List QueueItem) : List QueueItem :=
  if queue.isEmpty then queue
  else
    let selected : QueueItem → Bool := fun item =>
      match queueId with
      | none => true
      | some q => if q = "all" then true else item.id == q
    let afterSend := queue.map (fun item =>
      if selected item && item.status == "pending" && sendOk item
      then { item with status := "sent" } else item)
    afterSend.filter (fun item => item.status == "pending")

/-- Every item of the queue has status pending. -/
def allPending (queue : List QueueItem) : Bool :=
  queue.all (fun item => item.status == "pending")

/-- A capsule record of the HubLab catalog: the fields read by hublab_search
and _match_score, with the Python dict-get defaults for missing keys. -/
structure Capsule where
  id : String
  name : String
  category : String
  description : String
  tags : List String
  deriving DecidableEq, Repr

/-- Python substring test (pat in s): true when pat occurs in s; the empty
pattern always matches. -/
def strContains (s pat : String) : Bool :=
  if pat.isEmpty then true else decide (2 ≤ (s.splitOn pat).length)

/-- HubLabSkill._match_score (hublab_skill.py lines 202-235): sum of the
bonuses for an exact id match, a name containment and prefix match, an exact
tag match, each tag containing the query, a description containment and a
category containment, all on lowercased text. -/
def match_score (capsule : Capsule) (query : String) : Nat :=
  let q := query.toLower
  let score := 0
  let score := if capsule.id.toLower = q then score + 100 else score
  let nm := capsule.name.toLower
  let score := if strContains nm q then score + 50 else score
  let score := if nm.startsWith q then score + 30 else score
  let tags := capsule.tags.map String.toLower
  let score := if tags.contains q then score + 40 else score
  let score := score + 10 * (tags.filter (fun t => strContains t q)).length
  let score := if strContains capsule.description.toLower q then score + 20 else score
  let score := if strContains capsule.category.toLower q then score + 15 else score
  score

/-- One entry of the results array built by hublab_search: the capsule fields
(description truncated to 150 characters, tags to the first 5) plus the match
score. -/
structure SearchResult where
  id : String
  name : String
  category : String
  description : String
  tags : List String
  score : Nat
  deriving DecidableEq, Repr

/-- The JSON object returned by hublab_search: the error object built when
the capsule catalog could not be loaded, or the results object with the
query, the category filter, the result count, the number of capsules
searched, and the ranked results. -/
inductive SearchOutput where
  | err (message hint : String)
  | ok (query : String) (categoryFilter : Option String) (count : Nat)
      (totalSearched : Nat) (results : List SearchResult)
  deriving DecidableEq, Repr

/-- Python list slicing xs[:k]: the first k elements for nonnegative k, and
all but the last -k elements for negative k. -/
def pyTake (k : Int) (xs : List α) : List α :=
  if 0 ≤ k then xs.take k.toNat else xs.take (xs.length - (-k).toNat)

/-- The ordering used by the descending stable sort of hublab_search: the
earlier element carries the larger or equal score. -/
def scoreGE (a b : Nat × Capsule) : Prop :=
  b.1 ≤ a.1

instance : DecidableRel scoreGE :=
  fun a b => inferInstanceAs (Decidable (b.1 ≤ a.1))

instance : IsTotal (Nat × Capsule) scoreGE :=
  ⟨fun a b => Nat.le_total b.1 a.1⟩

instance : IsTrans (Nat × Capsule) scoreGE :=
  ⟨fun _ _ _ h1 h2 => Nat.le_trans h2 h1⟩

/-- The category filter of hublab_search: Python keeps the whole catalog when
the category argument is None or the empty string (both falsy), else keeps
the capsules whose category matches case-insensitively. -/
def hublabFiltered (capsules : List Capsule) (category : Option String) : List Capsule :=
  match category with
  | none => capsules
  | some c =>
    if c = "" then capsules
    else capsules.filter (fun cap => cap.category.toLower = c.toLower)

/-- The scoring loop of hublab_search: pair every capsule with its match
score, keeping only strictly positive scores. -/
def hublabScored (capsules : List Capsule) (query : String) : List (Nat × Capsule) :=
  capsules.filterMap (fun cap =>
    let s := match_score cap query
    if 0 < s then some (s, cap) else none)

/-- The ranked top of hublab_search: the scored list sorted by score
descending (a stable sort, as in Python) and cut to the limit. -/
def hublabTop (capsules : List Capsule) (query : String) (category : Option String)
    (limit : Int) : List (Nat × Capsule) :=
  pyTake limit (List.insertionSort scoreGE (hublabScored (hublabFiltered capsules category) query))

/-- The results array of hublab_search: the ranked top rendered with the
description cut to 150 characters and the tags to the first 5. -/
def hublabResults (capsules : List Capsule) (query : String) (category : Option String)
    (limit : Int) : List SearchResult :=
  (hublabTop capsules query category limit).map (fun sc =>
    { id := sc.2.id
      name := sc.2.name
      category := sc.2.category
      description := sc.2.description.take 150
      tags := sc.2.tags.take 5
      score := sc.1 })

/-- HubLabSkill.hublab_search (hublab_skill.py lines 237-286), applied to the
catalog returned by _load_capsules (which is empty exactly when neither the
metadata file nor the API could be read): the error object when the catalog
is empty, else the object carrying the ranked results; the hint abbreviates
the Python message, which interpolates the current HUBLAB_PATH. -/
def hublab_search (capsules : List Capsule) (query : String)
    (category : Option String) (limit : Int) : SearchOutput :=
  if capsules.isEmpty then
    .err "Could not load capsules. Check HUBLAB_PATH or API."
      "Set HUBLAB_PATH env var"
  else
    .ok query category (hublabResults capsules query category limit).length
      (hublabFiltered capsules category).length
      (hublabResults capsules query category limit)

/-- A fixed environment for concrete evaluations: no relevant context, the
backend answers every chat with a fixed content. -/
def envA : Env :=
  { chatContent := fun _ => some "hi there"
    chatWithTools := fun _ _ => "tool reply"
    relevantContext := fun _ _ => "" }

/-- A fresh agent: no skills, no tools, empty memory, clock at 0. -/
def agent0 : Agent :=
  { skills := [], tools := [], buffer := [], savedSession := [], now := 0 }

/-- C1: counterexample. Agent.run adds the user input to memory before the
relevant-context fetch (agent.py line 146 precedes line 149), so on the
concrete call run "hello" the memory state read by the fetch already contains
the current user input, contradicting the claim that both entries are
appended only at the persist step and that the fetch reads a state not yet
containing the input. -/
theorem c1_counterexample :
    ∃ e ∈ (Agent.run envA agent0 "hello").bufferAtFetch,
      e.entryType = "user_input" ∧ e.text = "hello" := by
  refine ⟨⟨"user_input", "hello", 0⟩, ?_, rfl, rfl⟩
  simp [Agent.run, envA, agent0, add_short_term]

/-- C1 (amended): in Agent.run the user input is appended to memory first,
before the relevant-context fetch; the final response is appended only after
the LLM has returned it, and the saved session is that final buffer; hence
for every call run(input) the relevant-context fetch reads a memory state
that already contains the current user input. -/
theorem run_memory_order (env : Env) (ag : Agent) (input : String) :
    (Agent.run env ag input).bufferAtFetch
        = ag.buffer ++ [⟨"user_input", input, ag.now⟩]
    ∧ (Agent.run env ag input).finalBuffer
        = (Agent.run env ag input).bufferAtFetch
            ++ [⟨"agent_response", (Agent.run env ag input).response, ag.now + 1⟩]
    ∧ (Agent.run env ag input).savedSession = (Agent.run env ag input).finalBuffer :=
  ⟨rfl, rfl, rfl⟩

/-- C2: for an agent with zero registered tools, run issues exactly one chat
call and no chat-with-tools call, and memory gains exactly two new entries, a
user_input entry followed by an agent_response entry, in that order. -/
theorem run_no_tools (env : Env) (ag : Agent) (input : String) (h : ag.tools = []) :
    (Agent.run env ag input).chatCalls = 1
    ∧ (Agent.run env ag input).chatWithToolsCalls = 0
    ∧ (Agent.run env ag input).finalBuffer
        = ag.buffer ++ [⟨"user_input", input, ag.now⟩,
            ⟨"agent_response", (Agent.run env ag input).response, ag.now + 1⟩] := by
  simp [Agent.run, add_short_term, h]

/-- C2 witness: the zero-tool fresh agent run on a concrete input. -/
theorem run_no_tools_witness :
    (Agent.run envA agent0 "hello").chatCalls = 1
    ∧ (Agent.run envA agent0 "hello").chatWithToolsCalls = 0
    ∧ (Agent.run envA agent0 "hello").finalBuffer
        = agent0.buffer ++ [⟨"user_input", "hello", agent0.now⟩,
            ⟨"agent_response", (Agent.run envA agent0 "hello").response, agent0.now + 1⟩] :=
  run_no_tools envA agent0 "hello" rfl

/-- C3: run_skill_directly returns the explicit not-found string, the same
one whatever the keyword arguments, for every name missing from the registry
(and, being a total function, never raises), and returns the skill execute
result for a registered name. -/
theorem run_skill_directly_spec (ag : Agent) (name : String) :
    (dictLookup ag.skills name = none →
      ∀ kwargs : List (String × String),
        run_skill_directly ag name kwargs = "Skill not found: " ++ name)
    ∧ (∀ skill, dictLookup ag.skills name = some skill →
      ∀ kwargs : List (String × String),
        run_skill_directly ag name kwargs = skill.execute kwargs) := by
  constructor
  · intro h kwargs
    simp [run_skill_directly, h]
  · intro skill h kwargs
    simp [run_skill_directly, h]

/-- A concrete skill used by witnesses: joins the argument values. -/
def echoSkill : SkillImpl :=
  { name := "echo"
    description := "echo skill"
    tools := []
    execute := fun kwargs => String.intercalate "," (kwargs.map (·.2)) }

/-- C3 witness: an agent holding one registered skill, evaluated at a missing
name and at the registered name. -/
theorem run_skill_directly_witness :
    run_skill_directly (register_skill agent0 echoSkill) "missing" [("a", "1")]
        = "Skill not found: missing"
    ∧ run_skill_directly (register_skill agent0 echoSkill) "echo" [("a", "1")]
        = echoSkill.execute [("a", "1")] :=
  ⟨(run_skill_directly_spec (register_skill agent0 echoSkill) "missing").1 rfl [("a", "1")],
   (run_skill_directly_spec (register_skill agent0 echoSkill) "echo").2 echoSkill rfl [("a", "1")]⟩

/-- Keys after a dict insertion: a name is a key of the updated dict exactly
when it is the inserted key or was a key already. -/
theorem mem_keys_dictInsert (d : List (String × α)) (k : String) (v : α) (n : String) :
    n ∈ (dictInsert d k v).map (·.1) ↔ n = k ∨ n ∈ d.map (·.1) := by
  induction d with
  | nil => simp [dictInsert]
  | cons p rest ih =>
    obtain ⟨k', v'⟩ := p
    by_cases h : k' = k
    · subst h
      simp [dictInsert]
    · simp [dictInsert, h, ih]
      tauto

/-- Available names after load_skills: a name is available exactly when it
was available before, or some class in the list constructs successfully to an
enabled skill with that name. -/
theorem mem_load_skills (enabled : String → Bool) (classes : List SkillClass)
    (ag : Agent) (n : String) :
    n ∈ get_available_skills (load_skills enabled classes ag)
    ↔ n ∈ get_available_skills ag
      ∨ ∃ c ∈ classes, ∃ s, c.construct = .ok s ∧ s.name = n ∧ enabled n = true := by
  induction classes generalizing ag with
  | nil => simp [load_skills]
  | cons c rest ih =>
    cases hc : c.construct with
    | error e =>
      have hstep : load_skills enabled (c :: rest) ag = load_skills enabled rest ag := by
        simp [load_skills, hc]
      rw [hstep, ih]
      constructor
      · rintro (h | h)
        · exact Or.inl h
        · obtain ⟨c', hc', s, hs, hn, he⟩ := h
          exact Or.inr ⟨c', List.mem_cons_of_mem _ hc', s, hs, hn, he⟩
      · rintro (h | ⟨c', hc', s, hs, hn, he⟩)
        · exact Or.inl h
        · rcases List.mem_cons.mp hc' with rfl | hmem
          · rw [hc] at hs
            exact absurd hs (by simp)
          · exact Or.inr ⟨c', hmem, s, hs, hn, he⟩
    | ok skill =>
      by_cases he : enabled skill.name
      · have hstep : load_skills enabled (c :: rest) ag
            = load_skills enabled rest (register_skill ag skill) := by
          simp [load_skills, hc, he]
        rw [hstep, ih]
        have hreg : n ∈ get_available_skills (register_skill ag skill)
            ↔ n = skill.name ∨ n ∈ get_available_skills ag := by
          simpa [get_available_skills, register_skill] using
            mem_keys_dictInsert ag.skills skill.name skill n
        rw [hreg]
        constructor
        · rintro ((rfl | h) | h)
          · exact Or.inr ⟨c, List.mem_cons_self c rest, skill, hc, rfl, he⟩
          · exact Or.inl h
          · obtain ⟨c', hc', s, hs, hn, hen⟩ := h
            exact Or.inr ⟨c', List.mem_cons_of_mem _ hc', s, hs, hn, hen⟩
        · rintro (h | ⟨c', hc', s, hs, hn, hen⟩)
          · exact Or.inl (Or.inr h)
          · rcases List.mem_cons.mp hc' with rfl | hmem
            · rw [hc] at hs
              obtain rfl : skill = s := by injection hs
              exact Or.inl (Or.inl hn.symm)
            · exact Or.inr ⟨c', hmem, s, hs, hn, hen⟩
      · have hstep : load_skills enabled (c :: rest) ag = load_skills enabled rest ag := by
          simp [load_skills, hc, he]
        rw [hstep, ih]
        constructor
        · rintro (h | ⟨c', hc', s, hs, hn, hen⟩)
          · exact Or.inl h
          · exact Or.inr ⟨c', List.mem_cons_of_mem _ hc', s, hs, hn, hen⟩
        · rintro (h | ⟨c', hc', s, hs, hn, hen⟩)
          · exact Or.inl h
          · rcases List.mem_cons.mp hc' with rfl | hmem
            · rw [hc] at hs
              obtain rfl : skill = s := by injection hs
              exact absurd (hn ▸ hen) (by exact fun hh => he hh)
            · exact Or.inr ⟨c', hmem, s, hs, hn, hen⟩

/-- C4: when one class in the list fails to construct, load_skills (a total
function: every construction failure is caught and skipped) still registers
the remaining valid enabled skills, and the available names afterwards are
exactly the names of successfully constructed enabled skills — in particular
they include each registered skill and exclude the failed class, which
contributed no skill. -/
theorem load_skills_degrades (enabled : String → Bool) (classes : List SkillClass)
    (c0 : SkillClass) (e : LoadError)
    (hmem : c0 ∈ classes) (hfail : c0.construct = .error e) :
    (∀ c ∈ classes, ∀ s, c.construct = .ok s → enabled s.name = true →
      s.name ∈ get_available_skills (load_skills enabled classes agent0))
    ∧ (∀ n, n ∈ get_available_skills (load_skills enabled classes agent0) →
      ∃ c ∈ classes, ∃ s, c.construct = .ok s ∧ s.name = n ∧ enabled n = true) := by
  constructor
  · intro c hc s hs hen
    exact (mem_load_skills enabled classes agent0 s.name).mpr
      (Or.inr ⟨c, hc, s, hs, rfl, hen⟩)
  · intro n hn
    rcases (mem_load_skills enabled classes agent0 n).mp hn with h | h
    · simp [agent0, get_available_skills] at h
    · exact h

/-- A skill class whose constructor fails with a missing dependency. -/
def failingClass : SkillClass :=
  { construct := .error (.importErr "no torch") }

/-- A skill class that constructs the concrete echo skill. -/
def okClass : SkillClass :=
  { construct := .ok echoSkill }

/-- C4 witness: loading a failing class next to a valid one registers the
valid skill, whose name is then available. -/
theorem load_skills_degrades_witness :
    echoSkill.name ∈ get_available_skills
      (load_skills (fun _ => true) [failingClass, okClass] agent0) :=
  (load_skills_degrades (fun _ => true) [failingClass, okClass] failingClass
      (.importErr "no torch") (List.mem_cons_self _ _) rfl).1
    okClass (by simp) echoSkill rfl rfl

/-- Looking up the key just inserted returns the value just stored. -/
theorem dictLookup_dictInsert (d : List (String × α)) (k : String) (v : α) :
    dictLookup (dictInsert d k v) k = some v := by
  induction d with
  | nil => simp [dictInsert, dictLookup]
  | cons p rest ih =>
    obtain ⟨k', v'⟩ := p
    by_cases hk : k' = k <;> simp [dictInsert, dictLookup, hk, ih]

/-- First tool named t, used by the C5 scenario. -/
def toolT1 : Tool :=
  { name := "t", description := "first", parameters := "", handler := fun _ => "1" }

/-- Second tool named t, distinct from the first by its description. -/
def toolT2 : Tool :=
  { name := "t", description := "second", parameters := "", handler := fun _ => "2" }

/-- A skill contributing the first tool named t. -/
def skillA : SkillImpl :=
  { name := "alpha", description := "skill a", tools := [toolT1], execute := fun _ => "a" }

/-- A skill contributing the second tool named t. -/
def skillB : SkillImpl :=
  { name := "beta", description := "skill b", tools := [toolT2], execute := fun _ => "b" }

/-- A skill with the same registry name as skillA, contributing the second
tool named t. -/
def skillA2 : SkillImpl :=
  { name := "alpha", description := "skill a2", tools := [toolT2], execute := fun _ => "b" }

/-- C5: counterexample. register_skill appends tools (agent.py lines 100-101),
so after registering two skills whose tools share the name t the flat tool
list still contains the first tool, which differs from the second: the list
does not contain only the last-registered tool under that name. -/
theorem c5_counterexample :
    toolT1 ∈ (register_skill (register_skill agent0 skillA) skillB).tools
    ∧ toolT1.name = "t" ∧ toolT2.name = "t"
    ∧ toolT1 ≠ toolT2 := by
  refine ⟨?_, rfl, rfl, ?_⟩
  · simp [register_skill, agent0, skillA, skillB]
  · intro h
    have hd : toolT1.description = toolT2.description := congrArg Tool.description h
    simp [toolT1, toolT2] at hd

/-- C5 (amended): after two registrations the flat tool list exposed to the
model contains the tools of both skills in registration order — the last
registration does not shadow the first there — while a skill-name collision
in the registry itself is resolved as last-registered wins. -/
theorem register_skill_amended (ag : Agent) (s1 s2 : SkillImpl) (h : s1.name = s2.name) :
    (register_skill (register_skill ag s1) s2).tools = ag.tools ++ s1.tools ++ s2.tools
    ∧ dictLookup (register_skill (register_skill ag s1) s2).skills s1.name = some s2 := by
  constructor
  · rfl
  · show dictLookup (dictInsert (dictInsert ag.skills s1.name s1) s2.name s2) s1.name = some s2
    rw [h]
    exact dictLookup_dictInsert _ _ _

/-- C5 witness: two skills sharing the registry name alpha; the tool list
keeps both tools and the registry keeps the second skill. -/
theorem register_skill_amended_witness :
    (register_skill (register_skill agent0 skillA) skillA2).tools
        = agent0.tools ++ skillA.tools ++ skillA2.tools
    ∧ dictLookup (register_skill (register_skill agent0 skillA) skillA2).skills skillA.name
        = some skillA2 :=
  register_skill_amended agent0 skillA skillA2 rfl

/-- The retry loop run from any attempt offset: when the next n attempts fail
retriably, at most the allowed remaining retries, and attempt a + n succeeds,
the loop returns that success after exactly n more invocations. -/
theorem retryGo_ok (op : Nat → Attempt α) (n : Nat) :
    ∀ a r, n ≤ r → (∀ i < n, ∃ m, op (a + i) = .retriable m) →
      ∀ v, op (a + n) = .ok v → retryGo op a r = (.ok v, a + n + 1) := by
  induction n with
  | zero =>
    intro a r _ _ v hok
    rw [Nat.add_zero] at hok
    cases r <;> simp [retryGo, hok]
  | succ k ih =>
    intro a r hle hfail v hok
    obtain ⟨m, hm⟩ := hfail 0 (Nat.succ_pos k)
    rw [Nat.add_zero] at hm
    cases r with
    | zero => omega
    | succ r' =>
      have hrec := ih (a + 1) r' (Nat.le_of_succ_le_succ hle)
        (fun i hi => by
          obtain ⟨m', hm'⟩ := hfail (i + 1) (Nat.succ_lt_succ hi)
          exact ⟨m', by rw [← hm']; ring_nf⟩)
        v (by rw [← hok]; ring_nf)
      simp only [retryGo, hm]
      rw [hrec]
      refine congrArg _ ?_
      omega

/-- C6: a zero-argument operation failing its first n attempts with a
retriable error and succeeding on attempt n is invoked exactly n + 1 times in
total (exactly n retries) and its success value is returned, whenever
max_retries allows at least n retries; an operation whose first attempt fails
with a non-retriable error is invoked exactly once and the error propagates
immediately. -/
theorem with_retry_spec (op : Nat → Attempt α) (maxRetries : Nat) :
    (∀ n v, n ≤ maxRetries → (∀ i < n, ∃ m, op i = .retriable m) →
      op n = .ok v → with_retry maxRetries op = (.ok v, n + 1))
    ∧ (∀ m, op 0 = .fatal m → with_retry maxRetries op = (.fatalError m, 1)) := by
  constructor
  · intro n v hn hfail hok
    have := retryGo_ok op n 0 maxRetries hn
      (fun i hi => by simpa using hfail i hi)
      v (by simpa using hok)
    simpa [with_retry] using this
  · intro m hm
    cases maxRetries <;> simp [with_retry, retryGo, hm]

/-- The operation of the witness scenario: two retriable failures, then
success. -/
def flakyOp : Nat → Attempt String := fun i =>
  if i < 2 then .retriable "connection refused" else .ok "success"

/-- The operation of the witness scenario that always fails fatally. -/
def fatalOp : Nat → Attempt String := fun _ => .fatal "Not retriable"

/-- C6 witness: with max_retries 3, the flaky operation is invoked exactly
3 times and returns success; the fatal operation is invoked exactly once. -/
theorem with_retry_witness :
    with_retry 3 flakyOp = (.ok "success", 3)
    ∧ with_retry 3 fatalOp = (.fatalError "Not retriable", 1) :=
  ⟨(with_retry_spec flakyOp 3).1 2 "success" (by decide)
      (fun i hi => ⟨"connection refused", by simp [flakyOp, hi]⟩) rfl,
   (with_retry_spec fatalOp 3).2 "Not retriable" rfl⟩

/-- C8: recording (p1, c1) and then (p2, c2) on a fresh tracker accumulates
prompt total p1 + p2, completion total c1 + c2, token total p1 + c1 + p2 + c2
and request count 2, and the opposite order of the two records yields the
same totals. -/
theorem token_tracker_spec (p1 c1 p2 c2 : Nat) :
    (TokenTracker.init.record p1 c1).record p2 c2
      = { totalPromptTokens := p1 + p2
          totalCompletionTokens := c1 + c2
          totalTokens := p1 + c1 + p2 + c2
          totalRequests := 2 }
    ∧ (TokenTracker.init.record p1 c1).record p2 c2
      = (TokenTracker.init.record p2 c2).record p1 c1 := by
  constructor <;>
    · simp only [TokenTracker.record, TokenTracker.init, TokenTracker.mk.injEq]
      exact ⟨by omega, by omega, by omega, trivial⟩

/-- Appending messages never touches the head: a sequence of add_message
calls on a non-empty history keeps the leading message in place. -/
theorem applyAdds_cons (m : Message) (ms : List Message) (calls : List (String × String)) :
    applyAdds (m :: ms) calls = m :: applyAdds ms calls := by
  induction calls generalizing ms with
  | nil => rfl
  | cons rc rest ih =>
    show applyAdds ((m :: ms) ++ [_]) rest = m :: applyAdds (ms ++ [_]) rest
    rw [List.cons_append, ih]

/-- After set_system_prompt the history starts with the system message
carrying the given text. -/
theorem set_system_prompt_head (msgs : List Message) (text : String) :
    ∃ rest, set_system_prompt msgs text
      = { role := "system", content := some text } :: rest := by
  cases msgs with
  | nil => exact ⟨[], rfl⟩
  | cons m tail =>
    by_cases h : m.role = "system" <;> simp [set_system_prompt, h]

/-- C7: every add_message call grows the conversation history by exactly one
message; once a system prompt was set, clear_history leaves exactly the one
leading system message, whatever add_message calls followed; and when no
system prompt was set (a history built by add_message calls with non-system
roles only), clear_history leaves zero messages. -/
theorem llm_history_spec (msgs : List Message) (role content text : String)
    (calls : List (String × String)) :
    (add_message msgs role content).length = msgs.length + 1
    ∧ clear_history (applyAdds (set_system_prompt msgs text) calls)
        = [{ role := "system", content := some text }]
    ∧ ((∀ rc ∈ calls, rc.1 ≠ "system") → clear_history (applyAdds [] calls) = []) := by
  refine ⟨by simp [add_message], ?_, ?_⟩
  · obtain ⟨rest, hrest⟩ := set_system_prompt_head msgs text
    rw [hrest, applyAdds_cons]
    simp [clear_history]
  · intro h
    cases calls with
    | nil => rfl
    | cons rc rest =>
      have hstep : applyAdds [] (rc :: rest)
          = applyAdds [{ role := rc.1, content := some rc.2 }] rest := rfl
      rw [hstep, applyAdds_cons]
      simp only [clear_history]
      rw [if_neg (h rc (List.mem_cons_self _ _))]

/-- C7 witness: a concrete history with the system prompt set and two later
messages, and a concrete history with no system prompt. -/
theorem llm_history_witness :
    (add_message [] "user" "Hello").length = List.length ([] : List Message) + 1
    ∧ clear_history (applyAdds (set_system_prompt [] "System")
        [("user", "Hello"), ("assistant", "Hi")])
        = [{ role := "system", content := some "System" }]
    ∧ clear_history (applyAdds [] [("user", "Hello"), ("assistant", "Hi")]) = [] :=
  ⟨(llm_history_spec [] "user" "Hello" "System"
      [("user", "Hello"), ("assistant", "Hi")]).1,
   (llm_history_spec [] "user" "Hello" "System"
      [("user", "Hello"), ("assistant", "Hi")]).2.1,
   (llm_history_spec [] "user" "Hello" "System"
      [("user", "Hello"), ("assistant", "Hi")]).2.2 (by decide)⟩

/-- C9: the all-pending invariant of the response queue. Under the invariant,
queue_add preserves it because the item it appends carries status pending and
queue_list performs no mutation; queue_send re-establishes it unconditionally
because it removes every item whose status is no longer pending before
returning. -/
theorem queue_all_pending (queue : List QueueItem)
    (platform messageId response priority now : String)
    (sendOk : QueueItem → Bool) (queueId : Option String)
    (hinv : allPending queue = true) :
    allPending (queue_add queue platform messageId response priority now) = true
    ∧ allPending (queue_list_queueAfter queue) = true
    ∧ allPending (queue_send sendOk queueId queue) = true := by
  refine ⟨?_, hinv, ?_⟩
  · simp only [allPending, queue_add, List.all_append, Bool.and_eq_true]
    exact ⟨hinv, by simp⟩
  · by_cases hq : queue.isEmpty
    · simpa [queue_send, hq] using hinv
    · simp only [queue_send, hq, if_neg Bool.false_ne_true]
      simp only [allPending, List.all_eq_true]
      intro item hitem
      exact (List.mem_filter.mp hitem).2

/-- A concrete pending queue item used by the C9 witness. -/
def pendingItem : QueueItem :=
  { id := "q_1"
    platform := "telegram"
    messageId := "m1"
    response := "thanks"
    priority := "normal"
    status := "pending"
    createdAt := "t0" }

/-- C9 witness: a queue holding one pending item, run through the three
operations with a sender that always succeeds. -/
theorem queue_all_pending_witness :
    allPending (queue_add [pendingItem] "telegram" "m2" "on my way" "normal" "t1") = true
    ∧ allPending (queue_list_queueAfter [pendingItem]) = true
    ∧ allPending (queue_send (fun _ => true) none [pendingItem]) = true :=
  queue_all_pending [pendingItem] "telegram" "m2" "on my way" "normal" "t1"
    (fun _ => true) none (by decide)

/-- A Python slice xs[:k] only keeps elements of xs. -/
theorem pyTake_subset (k : Int) (xs : List α) : pyTake k xs ⊆ xs := by
  unfold pyTake
  split <;> exact List.take_subset _ _

/-- C10: postcondition of hublab_search for a nonnegative limit. When the
catalog could not be loaded (the capsule list is empty) the function returns
the JSON error object rather than raising; otherwise it returns the results
object, whose results array contains at most limit entries, each with a
strictly positive match score, ordered by non-increasing score. -/
theorem hublab_search_spec (capsules : List Capsule) (query : String)
    (category : Option String) (limit : Int) (hlim : 0 ≤ limit) :
    (capsules = [] → hublab_search capsules query category limit
        = .err "Could not load capsules. Check HUBLAB_PATH or API."
            "Set HUBLAB_PATH env var")
    ∧ (capsules ≠ [] → hublab_search capsules query category limit
        = .ok query category (hublabResults capsules query category limit).length
            (hublabFiltered capsules category).length
            (hublabResults capsules query category limit))
    ∧ ((hublabResults capsules query category limit).length : Int) ≤ limit
    ∧ (∀ r ∈ hublabResults capsules query category limit, 0 < r.score)
    ∧ (hublabResults capsules query category limit).Pairwise
        (fun a b => b.score ≤ a.score) := by
  refine ⟨?_, ?_, ?_, ?_, ?_⟩
  · intro h
    simp [hublab_search, h]
  · intro h
    simp [hublab_search, h]
  · have hlen : (hublabResults capsules query category limit).length ≤ limit.toNat := by
      simp only [hublabResults, List.length_map, hublabTop, pyTake, if_pos hlim]
      exact List.length_take_le _ _
    calc ((hublabResults capsules query category limit).length : Int)
        ≤ (limit.toNat : Int) := by exact_mod_cast hlen
      _ = limit := Int.toNat_of_nonneg hlim
  · intro r hr
    simp only [hublabResults, List.mem_map] at hr
    obtain ⟨sc, hsc, rfl⟩ := hr
    show 0 < sc.1
    have hmem : sc ∈ List.insertionSort scoreGE
        (hublabScored (hublabFiltered capsules category) query) :=
      pyTake_subset _ _ hsc
    have hscored : sc ∈ hublabScored (hublabFiltered capsules category) query :=
      (List.mem_insertionSort scoreGE).mp hmem
    obtain ⟨cap, _, heq⟩ := List.mem_filterMap.mp hscored
    by_cases hpos : 0 < match_score cap query
    · simp only [hublabScored, if_pos hpos] at heq
      obtain rfl := Option.some.inj heq
      exact hpos
    · simp only [hublabScored, if_neg hpos] at heq
      cases heq
  · have hsorted : (List.insertionSort scoreGE
        (hublabScored (hublabFiltered capsules category) query)).Pairwise scoreGE :=
      List.sorted_insertionSort scoreGE _
    have htop : (hublabTop capsules query category limit).Pairwise scoreGE := by
      unfold hublabTop pyTake
      split <;> exact hsorted.sublist (List.take_sublist _ _)
    exact htop.map _ (fun a b hab => hab)

/-- A concrete two-capsule catalog used by the C10 witness. -/
def capsButton : List Capsule :=
  [{ id := "button", name := "Button", category := "UI",
     description := "A clickable button", tags := ["ui", "button"] },
   { id := "card", name := "Card", category := "UI",
     description := "A card container", tags := ["ui", "card"] }]

/-- C10 witness: the concrete catalog searched for the query button with
limit 2. -/
theorem hublab_search_witness :
    0 ≤ (2 : Int)
    ∧ ((hublabResults capsButton "button" none 2).length : Int) ≤ 2
    ∧ (hublabResults capsButton "button" none 2).Pairwise
        (fun a b => b.score ≤ a.score) :=
  ⟨by decide,
   (hublab_search_spec capsButton "button" none 2 (by decide)).2.2.1,
   (hublab_search_spec capsButton "button" none 2 (by decide)).2.2.2.2⟩
